import Mathlib

/-!
# A shallow embedding of the CrowdX reactivity runtime (src/crowdx.mjs)

This file models the CrowdX library — a small MobX-like reactive
dependency-tracking runtime — as executable Lean definitions, and proves
properties of the model.

Modelling choices, fixed throughout:

* JavaScript values are `JsValue`; objects and arrays live in an explicit
  heap (`JsState.objects`) and are referred to by numeric identities
  (`JsValue.vRef`), so JS reference identity is identity of heap ids.
  Numbers are modelled as integers (no floats, no `NaN`).
* A JS `Set` is modelled as an insertion-ordered duplicate-free `List`
  (`addUnique` mirrors `Set.add`, `removeAll` mirrors `Set.delete`), and a
  JS `Map` as an insertion-ordered association list (`alookup` / `aset` /
  `aremove`).  Reaction-sets are heap-allocated (`JsState.setsHeap`) and
  referred to by numeric ids, because the source shares them by reference.
* The singleton `CrowdXTrackingStore` state — `reactionSubscriptionSets`,
  `currentlyTracking`, `currentActionReactionSets` — is part of `JsState`.
* A thrown JS exception is modelled by the `JsState.err` flag: every
  operation returns its input state unchanged when `err` is set, which
  models the exception propagating past the remaining statements.
* Reaction closures are identified by numeric ids; a reaction's behaviour
  (`ReactionBody`) is a tracked function that reads a list of observable
  properties through the proxy `get` trap, combines the values read with a
  pure function, and then runs its effect: either recording the value
  (an ordinary `reaction` effect function, modelled by `effectLog`) or
  writing it to a cache property through the proxy `set` trap (the effect
  function built by `computed`).
* The mutually recursive operations (wrapping, the proxy `set` trap,
  `publish`, `publishAll`, running a reaction, actions) are a single
  fuel-indexed interpreter `run` over the instruction type `Act`; running
  out of fuel sets a distinguished `err`.  Each invocation of a reaction
  function is recorded in `fireLog`.
-/

/-- A JSON-like JavaScript value.  `vRef` is a reference to a heap object
(plain or proxied); `===` / `!==` on values is `DecidableEq`, which for
references is identity of heap ids. -/
inductive JsValue where
  | vUndefined
  | vNull
  | vBool (b : Bool)
  | vNum (n : Int)
  | vStr (s : String)
  | vRef (o : Nat)
  deriving DecidableEq, Repr

/-- A heap object.  `fields` are the target's own enumerable string-keyed
properties in insertion order; `propertyReactions` models the hidden
`PROPERTY_REACTIONS` table (property name → reaction-set id) and
`parentReactions` the hidden `PARENT_REACTIONS` reference.  `isProxy` is
true for objects returned by `observable` (reads/writes to them go through
the proxy traps), false for plain objects. -/
structure JsObject where
  isArray : Bool := false
  isProxy : Bool := false
  fields : List (String × JsValue) := []
  propertyReactions : List (String × Nat) := []
  parentReactions : Option Nat := none
  deriving Repr

/-- Lookup in an association list (JS `Map.get` / property lookup). -/
def alookup {κ α : Type} [DecidableEq κ] : List (κ × α) → κ → Option α
  | [], _ => none
  | (k, v) :: rest, key => if k = key then some v else alookup rest key

/-- Update-or-append in an association list (JS `Map.set` / property
assignment; a new key is appended, preserving insertion order). -/
def aset {κ α : Type} [DecidableEq κ] : List (κ × α) → κ → α → List (κ × α)
  | [], key, v => [(key, v)]
  | (k, w) :: rest, key, v =>
      if k = key then (key, v) :: rest else (k, w) :: aset rest key v

/-- Remove a key from an association list (JS `Map.delete`). -/
def aremove {κ α : Type} [DecidableEq κ] : List (κ × α) → κ → List (κ × α)
  | [], _ => []
  | (k, v) :: rest, key =>
      if k = key then aremove rest key else (k, v) :: aremove rest key

/-- JS `Set.add`: append if not already a member (insertion order kept). -/
def addUnique {α : Type} [DecidableEq α] (l : List α) (x : α) : List α :=
  if x ∈ l then l else l ++ [x]

/-- JS `Set.delete`: remove the element. -/
def removeAll {α : Type} [DecidableEq α] (l : List α) (x : α) : List α :=
  l.filter (fun y => y ≠ x)

/-- The effect function paired with a tracked function: either an ordinary
effect that just consumes the value (recorded in the effect log), or the
effect `val => cache.value = val` built by `computed`, which writes the
value to property `k` of heap object `o` through the proxy `set` trap. -/
inductive EffectKind where
  | logEffect
  | writeCache (o : Nat) (k : String)

/-- The behaviour of a reaction closure: its tracked function reads the
listed `(object, property)` pairs through the proxy `get` trap in order,
produces `compute` of the values read, and then its effect function runs
on that value. -/
structure ReactionBody where
  reads : List (Nat × String)
  compute : List JsValue → JsValue
  effect : EffectKind

/-- The entire mutable state of a CrowdX program: the object heap, the
heap of reaction-sets, the three fields of the singleton
`CrowdXTrackingStore`, the reaction closures by id, an effect log and a
log of reaction-function invocations, and the pending-exception flag. -/
structure JsState where
  objects : List (Nat × JsObject) := []
  nextObjId : Nat := 0
  setsHeap : List (Nat × List Nat) := []
  nextSetId : Nat := 0
  reactionSubscriptionSets : List (Nat × List Nat) := []
  currentlyTracking : Option (Nat × List Nat) := none
  currentActionReactionSets : Option (List (Option Nat)) := none
  bodies : List (Nat × ReactionBody) := []
  nextReactionId : Nat := 0
  effectLog : List (Nat × JsValue) := []
  fireLog : List Nat := []
  err : Option String := none

/-- Members of the reaction-set with id `sid` (empty if unallocated). -/
def membersOf (st : JsState) (sid : Nat) : List Nat :=
  (alookup st.setsHeap sid).getD []

/-- The reaction-sets recorded for reaction `r` in
`reactionSubscriptionSets` (empty if `r` has no record). -/
def recordOf (st : JsState) (r : Nat) : List Nat :=
  (alookup st.reactionSubscriptionSets r).getD []

/-- `CrowdXTrackingStore.beginTracking`: opens the currently-tracking
frame for `func` — unconditionally overwriting any frame already open,
as the source does — and creates an empty subscription record for `func`
if it has none. -/
def beginTracking (func : Nat) (st : JsState) : JsState :=
  if st.err.isSome then st else
  match alookup st.reactionSubscriptionSets func with
  | some _ => { st with currentlyTracking := some (func, []) }
  | none =>
      { st with currentlyTracking := some (func, []),
                reactionSubscriptionSets := aset st.reactionSubscriptionSets func [] }

/-- The loop of `CrowdXTrackingStore.completeTracking`: add `func` to each
collected reaction-set, in collection order. -/
def addToSets (sids : List Nat) (func : Nat)
    (heap : List (Nat × List Nat)) : List (Nat × List Nat) :=
  match sids with
  | [] => heap
  | sid :: rest =>
      addToSets rest func (aset heap sid (addUnique ((alookup heap sid).getD []) func))

/-- `CrowdXTrackingStore.completeTracking`: if a frame is open, add its
reaction to every reaction-set collected during the run, then close the
frame.  (It only ever adds; it does not remove the reaction from sets it
joined on earlier runs.) -/
def completeTracking (st : JsState) : JsState :=
  if st.err.isSome then st else
  match st.currentlyTracking with
  | none => st
  | some (func, collected) =>
      { st with setsHeap := addToSets collected func st.setsHeap,
                currentlyTracking := none }

/-- `CrowdXTrackingStore.track`: if a frame is open, record the
reaction-set id both in the frame and in the open reaction's subscription
record (the source's optional-chained `Map.get(...)?.add`). -/
def track (sid : Nat) (st : JsState) : JsState :=
  if st.err.isSome then st else
  match st.currentlyTracking with
  | none => st
  | some (func, collected) =>
      match alookup st.reactionSubscriptionSets func with
      | none => { st with currentlyTracking := some (func, addUnique collected sid) }
      | some sids =>
          { st with currentlyTracking := some (func, addUnique collected sid),
                    reactionSubscriptionSets := aset st.reactionSubscriptionSets func (addUnique sids sid) }

/-- The loop of `CrowdXTrackingStore.dispose`: delete `r` from each of the
recorded reaction-sets. -/
def removeFromSets (sids : List Nat) (r : Nat)
    (heap : List (Nat × List Nat)) : List (Nat × List Nat) :=
  match sids with
  | [] => heap
  | sid :: rest =>
      removeFromSets rest r (aset heap sid (removeAll ((alookup heap sid).getD []) r))

/-- `CrowdXTrackingStore.dispose`: remove reaction `r` from every
reaction-set in its subscription record, then forget the record. -/
def dispose (r : Nat) (st : JsState) : JsState :=
  if st.err.isSome then st else
  match alookup st.reactionSubscriptionSets r with
  | none => st
  | some sids =>
      { st with setsHeap := removeFromSets sids r st.setsHeap,
                reactionSubscriptionSets := aremove st.reactionSubscriptionSets r }

/-- `CrowdXTrackingStore.beginAction`: open a fresh currently-batching
set.  Batched entries are the reaction-set references passed to `publish`,
which in the source can be `undefined` — hence `Option Nat`. -/
def beginAction (st : JsState) : JsState :=
  if st.err.isSome then st else
  { st with currentActionReactionSets := some [] }

/-- Raw (un-trapped) read of a property from an object: `target[prop]`,
`undefined` when absent. -/
def rawGetF (obj : JsObject) (k : String) : JsValue :=
  (alookup obj.fields k).getD .vUndefined

/-- The proxy `get` trap for an ordinary (non-array-mutation-method)
property: if the property has an observable reaction-set, `track` it,
then return the stored value. -/
def proxyGet (o : Nat) (k : String) (st : JsState) : JsState × JsValue :=
  if st.err.isSome then (st, .vUndefined) else
  match alookup st.objects o with
  | none => (st, .vUndefined)
  | some obj =>
      match alookup obj.propertyReactions k with
      | some sid => (track sid st, rawGetF obj k)
      | none => (st, rawGetF obj k)

/-- A tracked function's reads: each `(object, property)` pair is read
through the proxy `get` trap in order, collecting the values. -/
def doReads (reads : List (Nat × String)) (st : JsState) : JsState × List JsValue :=
  match reads with
  | [] => (st, [])
  | (o, k) :: rest =>
      let p := proxyGet o k st
      let q := doReads rest p.1
      (q.1, p.2 :: q.2)

/-- The values a list of reads produces on a given heap (reads do not
change any stored value, so this is a pure function of the heap). -/
def readVals (objects : List (Nat × JsObject)) (reads : List (Nat × String)) : List JsValue :=
  reads.map fun p =>
    match alookup objects p.1 with
    | some obj => rawGetF obj p.2
    | none => .vUndefined

/-- `target[prop] = wrapped` — the raw assignment inside the `set` trap. -/
def setField (st : JsState) (o : Nat) (k : String) (v : JsValue) : JsState :=
  if st.err.isSome then st else
  match alookup st.objects o with
  | none => st
  | some obj =>
      { st with objects := aset st.objects o { obj with fields := aset obj.fields k v } }

/-- The `set` trap's step creating `target[PROPERTY_REACTIONS][prop] = new Set()`
when the property has no reaction-set yet. -/
def mintSetIfMissing (st : JsState) (o : Nat) (obj : JsObject) (k : String) : JsState :=
  match alookup obj.propertyReactions k with
  | some _ => st
  | none =>
      { st with
          setsHeap := aset st.setsHeap st.nextSetId [],
          nextSetId := st.nextSetId + 1,
          objects := aset st.objects o
            { obj with propertyReactions := aset obj.propertyReactions k st.nextSetId } }

/-- The error message of iterating `undefined` (`for (const reaction of
reactionSet)` with `reactionSet === undefined`). -/
def typeErrorMsg : String := "TypeError: undefined is not iterable"

/-- Distinguished diagnostic set when the interpreter's fuel runs out. -/
def fuelMsg : String := "InternalError: out of fuel"

/-- In the source, the guard of `observable` is
`typeof val === "object" && val != null && !Object.hasOwnProperty(PROPERTY_REACTIONS)`:
the `hasOwnProperty` call is made on the `Object` constructor itself, not
on `val`, and the `Object` constructor has no own property keyed by the
`PROPERTY_REACTIONS` symbol, so this test is the constant `false` (and the
first branch is taken for every non-null object). -/
def objectHasOwnPropertyPROPERTYREACTIONS : Bool := false

/-- The union loop of `publishAll` outside an action: combine the members
of every reaction-set into one deduplicated list (`allReactions`), in
iteration order; reaching an `undefined` reaction-set reference makes the
`for … of` loop throw a `TypeError` before anything is invoked. -/
def collectAll (heap : List (Nat × List Nat)) (ss : List (Option Nat))
    (acc : List Nat) : Option (List Nat) :=
  match ss with
  | [] => some acc
  | none :: _ => none
  | some sid :: rest =>
      collectAll heap rest (((alookup heap sid).getD []).foldl addUnique acc)

/-- One instruction of the mutually recursive part of the library.  Each
constructor corresponds to an operation of the source:

* `observable val parent` — the function `observable(val, parentReactionSet)`;
* `copyInto src dst keys` — `observable`'s copy loop for objects
  (`for (const key of Object.keys(val)) proxy[key] = val[key]`);
* `copyPush src dst keys` — `observable`'s copy loop for arrays
  (`for (let i = 0; i < val.length; i++) proxy.push(val[i])`), modelled by
  iterating the source's keys at entry to the loop;
* `pushM o v` — the wrapped array-mutation method returned by the `get`
  trap for `push`: perform the raw push, then
  `subscriptionsStore.publish(target[PARENT_REACTIONS])`;
* `setP o k v` — the proxy `set` trap;
* `publish s` — `CrowdXTrackingStore.publish` (with the reaction-set
  reference possibly `undefined`, hence `Option`);
* `publishAll ss` — `CrowdXTrackingStore.publishAll`;
* `fire rs` — the loop invoking each reaction of a collected list;
* `runR r` — one invocation of the reaction function `r` built by
  `reaction` (begin tracking, run the tracked function, complete
  tracking, run the effect);
* `cmds cs` — a user-supplied function body: a sequence of property
  assignments and throws (the shape of mutating functions passed to
  `action`);
* `completeA` — `CrowdXTrackingStore.completeAction`;
* `actionA cs` — one call of the wrapper returned by `action(fn)`. -/
inductive Cmd where
  | setProp (o : Nat) (k : String) (v : JsValue)
  | throwJs (msg : String)

inductive Act where
  | observable (val : JsValue) (parent : Option Nat)
  | copyInto (src dst : Nat) (keys : List String)
  | copyPush (src dst : Nat) (keys : List String)
  | pushM (o : Nat) (v : JsValue)
  | setP (o : Nat) (k : String) (v : JsValue)
  | publish (s : Option Nat)
  | publishAll (ss : List (Option Nat))
  | fire (rs : List Nat)
  | runR (r : Nat)
  | cmds (cs : List Cmd)
  | completeA
  | actionA (cs : List Cmd)

/-- The element-read step of `observable`'s copy loops: reading
`val[key]` (resp. `val[i]`) goes through the `get` trap when the source is
itself a proxy (the re-wrapping case), and is a raw read otherwise. -/
def readStep (o : Nat) (k : String) (st : JsState) : JsState × JsValue :=
  match alookup st.objects o with
  | none => (st, .vUndefined)
  | some s => if s.isProxy then proxyGet o k st else (st, rawGetF s k)

/-- The fresh wrapper target built by `observable` for a composite: an
empty object/array of the source's kind with an empty
`PROPERTY_REACTIONS` table and the supplied `PARENT_REACTIONS`. -/
def wrapShell (src : JsObject) (parent : Option Nat) : JsObject :=
  { isArray := src.isArray, isProxy := true, fields := [],
    propertyReactions := [], parentReactions := parent }

/-- One step of the fuel-indexed interpreter: the behaviour of each
instruction, with `rec` standing for the interpreter at the next smaller
fuel.  See `Act` for the source operation each arm models. -/
def runBody (rec : Act → JsState → JsState × JsValue) (a : Act) (st : JsState) :
    JsState × JsValue :=
  match a with
  | .observable val parent =>
      -- `observable(val, parentReactionSet)`.  The guard's
      -- `Object.hasOwnProperty(PROPERTY_REACTIONS)` conjunct is the
      -- constant `false` (see `objectHasOwnPropertyPROPERTYREACTIONS`),
      -- so every non-null object — already wrapped or not — takes the
      -- first branch; primitives and `null` are returned unchanged.
      match val with
      | .vRef o =>
          if objectHasOwnPropertyPROPERTYREACTIONS then (st, val)
          else
            match alookup st.objects o with
            | none => (st, val)
            | some src =>
                let oid := st.nextObjId
                let newObj := wrapShell src parent
                let st1 := { st with objects := aset st.objects oid newObj,
                                     nextObjId := oid + 1 }
                if src.isArray then
                  ((rec (.copyPush o oid (src.fields.map Prod.fst)) st1).1, .vRef oid)
                else
                  ((rec (.copyInto o oid (src.fields.map Prod.fst)) st1).1, .vRef oid)
      | _ => (st, val)
  | .copyInto src dst keys =>
      -- `for (const key of Object.keys(val)) proxy[key] = val[key]`
      match keys with
      | [] => (st, .vUndefined)
      | k :: rest =>
          let p := readStep src k st
          let st2 := (rec (.setP dst k p.2) p.1).1
          rec (.copyInto src dst rest) st2
  | .copyPush src dst keys =>
      -- `for (let i = 0; i < val.length; i++) proxy.push(val[i])`
      match keys with
      | [] => (st, .vUndefined)
      | k :: rest =>
          let p := readStep src k st
          let st2 := (rec (.pushM dst p.2) p.1).1
          rec (.copyPush src dst rest) st2
  | .pushM o v =>
      -- the substitute `push` returned by the `get` trap:
      -- `const res = target.push(v); subscriptionsStore.publish(target[PARENT_REACTIONS]);`
      match alookup st.objects o with
      | none => (st, .vUndefined)
      | some obj =>
          let pushed := { obj with fields := obj.fields ++ [(toString obj.fields.length, v)] }
          let st1 := { st with objects := aset st.objects o pushed }
          rec (.publish obj.parentReactions) st1
  | .setP o k value =>
      -- the proxy `set` trap
      match alookup st.objects o with
      | none => (st, .vUndefined)
      | some obj =>
          -- `if (target[prop] !== value)` — otherwise do nothing
          if rawGetF obj k = value then (st, .vUndefined)
          else
            let newProperty := (alookup obj.fields k).isNone
            let st1 := mintSetIfMissing st o obj k
            -- `observable(value, target[PROPERTY_REACTIONS][prop])`
            let rsid := (alookup st1.objects o).bind fun ob => alookup ob.propertyReactions k
            let p := rec (.observable value rsid) st1
            -- `target[prop] = ...`
            let st3 := setField p.1 o k p.2
            if newProperty then
              -- `if (target[PARENT_REACTIONS] != null) publish(target[PARENT_REACTIONS])`
              match (alookup st3.objects o).bind fun ob => ob.parentReactions with
              | some par => rec (.publish (some par)) st3
              | none => (st3, .vUndefined)
            else
              rec (.publish ((alookup st3.objects o).bind fun ob =>
                alookup ob.propertyReactions k)) st3
  | .publish s =>
      match st.currentActionReactionSets with
      | some batch =>
          ({ st with currentActionReactionSets := some (addUnique batch s) }, .vUndefined)
      | none =>
          match s with
          | none => ({ st with err := some typeErrorMsg }, .vUndefined)
          | some sid => rec (.fire (membersOf st sid)) st
  | .publishAll ss =>
      match st.currentActionReactionSets with
      | some batch =>
          ({ st with currentActionReactionSets := some (ss.foldl addUnique batch) }, .vUndefined)
      | none =>
          match collectAll st.setsHeap ss [] with
          | none => ({ st with err := some typeErrorMsg }, .vUndefined)
          | some allReactions => rec (.fire allReactions) st
  | .fire rs =>
      match rs with
      | [] => (st, .vUndefined)
      | r :: rest =>
          let st1 := (rec (.runR r) st).1
          rec (.fire rest) st1
  | .runR r =>
      -- one invocation of the closure `reactionFn` built by `reaction`
      let st0 := { st with fireLog := st.fireLog ++ [r] }
      match alookup st0.bodies r with
      | none => (st0, .vUndefined)
      | some body =>
          let st1 := beginTracking r st0
          let q := doReads body.reads st1
          let st2 := completeTracking q.1
          let v := body.compute q.2
          match body.effect with
          | .logEffect => ({ st2 with effectLog := st2.effectLog ++ [(r, v)] }, .vUndefined)
          | .writeCache co ck => rec (.setP co ck v) st2
  | .cmds cs =>
      match cs with
      | [] => (st, .vUndefined)
      | c :: rest =>
          let st1 :=
            match c with
            | .setProp o k v => (rec (.setP o k v) st).1
            | .throwJs m => { st with err := some m }
          rec (.cmds rest) st1
  | .completeA =>
      -- `completeAction` clears the batching set BEFORE publishing
      let observables := st.currentActionReactionSets
      let st1 := { st with currentActionReactionSets := none }
      match observables with
      | none => (st1, .vUndefined)
      | some ss => rec (.publishAll ss) st1
  | .actionA cs =>
      -- the wrapper returned by `action(fn)`:
      -- `beginAction(); fn(...args); completeAction();` — no try/finally
      let st1 := beginAction st
      let st2 := (rec (.cmds cs) st1).1
      rec .completeA st2

/-- The fuel-indexed interpreter for the mutually recursive operations of
the library.  A set `err` short-circuits every instruction (the exception
propagates); exhausted fuel sets the distinguished `fuelMsg` error. -/
def run : Nat → Act → JsState → JsState × JsValue
  | 0, _, st =>
      if st.err.isSome then (st, .vUndefined)
      else ({ st with err := some fuelMsg }, .vUndefined)
  | n + 1, a, st =>
      if st.err.isSome then (st, .vUndefined)
      else runBody (run n) a st

/-- `reaction(trackedFn, effectFn)`: build the reaction closure (a fresh
identity with the given behaviour), invoke it once immediately, and
return the new identity — the content of the disposal handle. -/
def reaction (fuel : Nat) (body : ReactionBody) (st : JsState) : JsState × Nat :=
  if st.err.isSome then (st, st.nextReactionId) else
  let rid := st.nextReactionId
  let st1 := { st with bodies := aset st.bodies rid body, nextReactionId := rid + 1 }
  ((run fuel (.runR rid) st1).1, rid)

/-- Allocate a plain (unwrapped) object literal on the heap. -/
def allocPlain (fields : List (String × JsValue)) (st : JsState) : JsState × Nat :=
  let oid := st.nextObjId
  let obj : JsObject :=
    { isArray := false, isProxy := false, fields := fields,
      propertyReactions := [], parentReactions := none }
  ({ st with objects := aset st.objects oid obj, nextObjId := oid + 1 }, oid)

/-- `computed(fn)`: wrap a fresh `{ value: undefined }` literal as the
cache, then create `reaction(fn, val => cache.value = val)`.  Returns the
cache's heap id (the returned accessor reads `cache.value`) and the
reaction's identity (stored on the accessor for disposal). -/
def computed (fuel : Nat) (reads : List (Nat × String))
    (compute : List JsValue → JsValue) (st : JsState) : JsState × Nat × Nat :=
  let p := allocPlain [("value", .vUndefined)] st
  let cid := p.1.nextObjId
  let st2 := (run fuel (.observable (.vRef p.2) none) p.1).1
  let q := reaction fuel ⟨reads, compute, .writeCache cid "value"⟩ st2
  (q.1, cid, q.2)

/-- The public `dispose(disposalHandle)`: a no-op when the handle carries
no reaction, otherwise `subscriptionsStore.dispose` on it. -/
def disposePublic (h : Option Nat) (st : JsState) : JsState :=
  match h with
  | none => st
  | some r => dispose r st

/-- An object with a reaction-set handle installed for property `k`. -/
def withPropHandle (obj : JsObject) (k : String) (sid : Nat) : JsObject :=
  { obj with propertyReactions := aset obj.propertyReactions k sid }

/-- An object with property `k` set to `v` (raw). -/
def withFieldVal (obj : JsObject) (k : String) (v : JsValue) : JsObject :=
  { obj with fields := aset obj.fields k v }

/-! ## Concrete scenario states used by the theorems below -/

/-- A tracked function of one read: return the value read. -/
def headVal : List JsValue → JsValue := fun l => l.headD .vUndefined

/-- A tracked function combining reads: the sum of the numbers read. -/
def sumVals : List JsValue → JsValue := fun l =>
  .vNum (l.foldl (fun acc v => acc + (match v with | .vNum m => m | _ => 0)) 0)

/-- Two pre-allocated empty reaction-sets (ids 0 and 1), as the field
handles of two different observable properties. -/
def c1Base : JsState := { setsHeap := [(0, []), (1, [])], nextSetId := 2 }

/-- Reaction 7 runs twice: the first run reads only the property with
handle 0, the second run reads only the property with handle 1. -/
def c1Final : JsState :=
  completeTracking (track 1 (beginTracking 7
    (completeTracking (track 0 (beginTracking 7 c1Base)))))

/-- A state mid-run: the frame for reaction 7 collected handle 0 only;
handle 1 already holds an unrelated reaction 9. -/
def c1WitSt : JsState :=
  { setsHeap := [(0, []), (1, [9])], nextSetId := 2,
    reactionSubscriptionSets := [(7, [0])],
    currentlyTracking := some (7, [0]) }

/-- A plain `{a: 1}` literal. -/
def c2Plain : JsObject := { fields := [("a", .vNum 1)] }

def c2St0 : JsState := { objects := [(0, c2Plain)], nextObjId := 1 }

/-- `observable({a: 1})`. -/
def c2P1 : JsState × JsValue := run 10 (.observable (.vRef 0) none) c2St0

/-- `observable(observable({a: 1}))` — wrapping the wrapper. -/
def c2P2 : JsState × JsValue := run 10 (.observable c2P1.2 none) c2P1.1

/-- A plain `{bar: 1, other: 2}` literal. -/
def c3Obj0 : JsObject :=
  { isArray := false, isProxy := false,
    fields := [("bar", .vNum 1), ("other", .vNum 2)],
    propertyReactions := [], parentReactions := none }

def c3State0 : JsState := { objects := [(0, c3Obj0)], nextObjId := 1 }

/-- `obs = observable({bar: 1, other: 2})` — the wrapper is heap id 1;
the copy mints field handles 0 (`bar`) and 1 (`other`). -/
def c3S1 : JsState := (run 30 (.observable (.vRef 0) none) c3State0).1

/-- `c1 = computed(() => obs.bar)` — cache heap id 3, reaction id 0;
its initial run mints handle 2 for `cache1.value`. -/
def c3S2 : JsState × Nat × Nat := computed 30 [(1, "bar")] headVal c3S1

/-- `c2 = computed(() => obs.other)` — cache heap id 5, reaction id 1;
mints handle 3 for `cache2.value`. -/
def c3S3 : JsState × Nat × Nat := computed 30 [(1, "other")] headVal c3S2.1

/-- `c3 = computed(() => c1() + c2())` — reads both cache accessors;
cache heap id 7, reaction id 2; mints handle 4 for `cache3.value`. -/
def c3S4 : JsState × Nat × Nat := computed 30 [(3, "value"), (5, "value")] sumVals c3S3.1

def c3Pre : JsState := c3S4.1

/-- `action(() => { obs.bar = 10; obs.other = 20; })()`. -/
def c3Post : JsState :=
  (run 30 (.actionA [.setProp 1 "bar" (.vNum 10), .setProp 1 "other" (.vNum 20)]) c3Pre).1

/-- A wrapped (proxied) object whose parent reaction-set is handle 0. -/
def c4T : JsObject := { isProxy := true, parentReactions := some 0 }

/-- A plain `{a: 1}` literal to be assigned into a fresh field. -/
def c4Child : JsObject := { fields := [("a", .vNum 1)] }

/-- Inside an action (batch open and empty), with the parent handle 0
allocated. -/
def c4St0 : JsState :=
  { objects := [(0, c4T), (1, c4Child)], nextObjId := 2,
    setsHeap := [(0, [])], nextSetId := 1,
    currentActionReactionSets := some [] }

/-- `target.k = {a: 1}` under the open batch. -/
def c4Res : JsState := (run 10 (.setP 0 "k" (.vRef 1)) c4St0).1

/-- A wrapped object with parent handle 0 and no fields, inside an action. -/
def c4WSt : JsState :=
  { objects := [(0, c4T)], nextObjId := 1,
    setsHeap := [(0, [])], nextSetId := 1,
    currentActionReactionSets := some [] }

/-- A wrapped object `{x: 5}` whose field `x` has handle 0, subscribed to
by reaction 4. -/
def c5Obj : JsObject :=
  { isProxy := true, fields := [("x", .vNum 5)], propertyReactions := [("x", 0)] }

def c5St : JsState :=
  { objects := [(0, c5Obj)], nextObjId := 1, setsHeap := [(0, [4])], nextSetId := 1 }

/-- A wrapped object `{x: 42}` with a field handle for `x`. -/
def c6Obj : JsObject :=
  { isProxy := true, fields := [("x", .vNum 42)], propertyReactions := [("x", 0)] }

def c6St : JsState :=
  { objects := [(0, c6Obj)], nextObjId := 1, setsHeap := [(0, [])], nextSetId := 1 }

/-- `reaction(() => obj.x, x => log(x))`. -/
def c6Body : ReactionBody := ⟨[(0, "x")], headVal, .logEffect⟩

/-- A state with the currently-tracking frame already open (reaction 1
mid-run, having collected handle 0). -/
def c7Open : JsState := { currentlyTracking := some (1, [0]) }

/-- Subscription-record soundness: every reaction found in some
reaction-set has that set's id in its subscription record.  This is the
invariant the tracking store maintains: `track` records every set it
hands to the open frame, and `completeTracking` adds the reaction only to
recorded sets. -/
def StoreInv (st : JsState) : Prop :=
  ∀ p ∈ st.setsHeap, ∀ x ∈ p.2, p.1 ∈ recordOf st x

/-- The reaction the currently-tracking frame is open for, if any. -/
def frameOwner (st : JsState) : Option Nat :=
  st.currentlyTracking.map Prod.fst

/-- Reaction `r` is subscribed nowhere, and no currently-tracking frame is
open for it. -/
def NotSub (r : Nat) (st : JsState) : Prop :=
  (∀ sid, r ∉ membersOf st sid) ∧ frameOwner st ≠ some r

/-- Side conditions under which running an instruction cannot invoke
reaction `r` out of thin air: an explicit fire-list must not contain `r`
and a direct invocation must not be `r` itself.  (All instructions the
library reaches from a mutation satisfy this vacuously.) -/
def fireSafeAct (r : Nat) : Act → Prop
  | .fire rs => r ∉ rs
  | .runR f => f ≠ r
  | _ => True

/-- Instructions that close the current batch (only `completeAction` and
the `action` wrapper do). -/
def Act.isActionish : Act → Bool
  | .completeA => true
  | .actionA _ => true
  | _ => false

/-- Reaction 5 is subscribed to reaction-set 0, and its record knows it. -/
def c8WSt : JsState :=
  { setsHeap := [(0, [5])], nextSetId := 1,
    reactionSubscriptionSets := [(5, [0])] }

/-- A root array `[5]` (plain, unwrapped). -/
def c10Arr : JsObject := { isArray := true, fields := [("0", .vNum 5)] }

def c10St0 : JsState := { objects := [(0, c10Arr)], nextObjId := 1 }

/-! ## Association-list and set-list lemmas -/

theorem alookup_aset_self {κ α : Type} [DecidableEq κ] (l : List (κ × α)) (k : κ) (v : α) :
    alookup (aset l k v) k = some v := by
  induction l with
  | nil => simp [aset, alookup]
  | cons hd tl ih =>
      obtain ⟨k', w⟩ := hd
      by_cases h : k' = k <;> simp [aset, alookup, h, ih]

theorem alookup_aset_ne {κ α : Type} [DecidableEq κ] (l : List (κ × α)) (k k' : κ) (v : α)
    (h : k' ≠ k) : alookup (aset l k v) k' = alookup l k' := by
  induction l with
  | nil => simp [aset, alookup, Ne.symm h]
  | cons hd tl ih =>
      obtain ⟨k0, w⟩ := hd
      by_cases h0 : k0 = k
      · subst h0
        simp [aset, alookup, Ne.symm h]
      · simp [aset, alookup, h0, ih]

theorem mem_of_alookup_eq_some {κ α : Type} [DecidableEq κ] (l : List (κ × α)) (k : κ) (v : α)
    (h : alookup l k = some v) : (k, v) ∈ l := by
  induction l with
  | nil => simp [alookup] at h
  | cons hd tl ih =>
      obtain ⟨k0, w⟩ := hd
      by_cases h0 : k0 = k
      · subst h0
        simp [alookup] at h
        simp [h]
      · simp [alookup, h0] at h
        simp [ih h]

theorem mem_addUnique_self {α : Type} [DecidableEq α] (l : List α) (x : α) :
    x ∈ addUnique l x := by
  unfold addUnique; split <;> simp [*]

theorem mem_addUnique_of {α : Type} [DecidableEq α] {l : List α} {y : α} (x : α)
    (h : y ∈ l) : y ∈ addUnique l x := by
  unfold addUnique; split <;> simp [h]

theorem not_mem_addUnique {α : Type} [DecidableEq α] {l : List α} {x y : α}
    (hy : y ∉ l) (hne : y ≠ x) : y ∉ addUnique l x := by
  unfold addUnique; split <;> simp [hy, hne]

theorem not_mem_removeAll {α : Type} [DecidableEq α] (l : List α) (x : α) :
    x ∉ removeAll l x := by
  simp [removeAll]

/-- After the `completeTracking` loop, the reaction is in every collected
set, and uncollected sets are untouched. -/
theorem addToSets_spec (sids : List Nat) (f : Nat) (heap : List (Nat × List Nat)) (sid : Nat) :
    (sid ∈ sids → f ∈ (alookup (addToSets sids f heap) sid).getD []) ∧
    (sid ∉ sids → alookup (addToSets sids f heap) sid = alookup heap sid) := by
  induction sids generalizing heap with
  | nil => simp [addToSets]
  | cons s rest ih =>
      constructor
      · intro hmem
        by_cases hrest : sid ∈ rest
        · exact ((ih _).1) hrest
        · have hs : sid = s := by
            rcases List.mem_cons.mp hmem with h | h
            · exact h
            · exact absurd h hrest
          subst hs
          rw [show addToSets (sid :: rest) f heap
              = addToSets rest f (aset heap sid (addUnique ((alookup heap sid).getD []) f))
              from rfl]
          rw [(ih _).2 hrest, alookup_aset_self]
          simpa using mem_addUnique_self _ f
      · intro hmem
        have hs : sid ≠ s := fun h => hmem (by simp [h])
        have hrest : sid ∉ rest := fun h => hmem (List.mem_cons_of_mem _ h)
        rw [show addToSets (s :: rest) f heap
            = addToSets rest f (aset heap s (addUnique ((alookup heap s).getD []) f))
            from rfl]
        rw [(ih _).2 hrest, alookup_aset_ne _ _ _ _ hs]

/-- After the `dispose` loop, the reaction is absent from every set that
is listed or that did not contain it to begin with. -/
theorem removeFromSets_not_mem (sids : List Nat) (r : Nat) (heap : List (Nat × List Nat))
    (sid : Nat) (h : sid ∈ sids ∨ r ∉ ((alookup heap sid).getD [])) :
    r ∉ ((alookup (removeFromSets sids r heap) sid).getD []) := by
  induction sids generalizing heap with
  | nil =>
      rcases h with h | h
      · simp at h
      · simpa [removeFromSets] using h
  | cons s rest ih =>
      rw [show removeFromSets (s :: rest) r heap
          = removeFromSets rest r (aset heap s (removeAll ((alookup heap s).getD []) r))
          from rfl]
      apply ih
      by_cases hrest : sid ∈ rest
      · exact Or.inl hrest
      · right
        by_cases hs : sid = s
        · subst hs
          rw [alookup_aset_self]
          simpa using not_mem_removeAll _ r
        · rw [alookup_aset_ne _ _ _ _ hs]
          rcases h with h | h
          · rcases List.mem_cons.mp h with h' | h'
            · exact absurd h' hs
            · exact absurd h' hrest
          · exact h

/-! ## Frame lemmas for the store helpers -/

/-- A set `err` makes every interpreter step a no-op (the exception
propagates). -/
theorem run_err_absorb (fuel : Nat) (a : Act) (st : JsState) (h : st.err.isSome) :
    run fuel a st = (st, .vUndefined) := by
  cases fuel <;> simp [run, h]

theorem track_shape (sid : Nat) (st : JsState) :
    ∃ ct rss, track sid st
      = { st with currentlyTracking := ct, reactionSubscriptionSets := rss } := by
  unfold track
  split
  · exact ⟨_, _, rfl⟩
  · split
    · exact ⟨_, _, rfl⟩
    · split
      · exact ⟨_, _, rfl⟩
      · exact ⟨_, _, rfl⟩

theorem beginTracking_shape (f : Nat) (st : JsState) :
    ∃ ct rss, beginTracking f st
      = { st with currentlyTracking := ct, reactionSubscriptionSets := rss } := by
  unfold beginTracking
  split
  · exact ⟨_, _, rfl⟩
  · split
    · exact ⟨_, _, rfl⟩
    · exact ⟨_, _, rfl⟩

theorem completeTracking_shape (st : JsState) :
    ∃ sh ct, completeTracking st
      = { st with setsHeap := sh, currentlyTracking := ct } := by
  unfold completeTracking
  split
  · exact ⟨_, _, rfl⟩
  · split
    · exact ⟨_, _, rfl⟩
    · exact ⟨_, _, rfl⟩

theorem proxyGet_shape (o : Nat) (k : String) (st : JsState) :
    ∃ ct rss, (proxyGet o k st).1
      = { st with currentlyTracking := ct, reactionSubscriptionSets := rss } := by
  unfold proxyGet
  split
  · exact ⟨_, _, rfl⟩
  · split
    · exact ⟨_, _, rfl⟩
    · split
      · exact track_shape _ _
      · exact ⟨_, _, rfl⟩

theorem doReads_shape (reads : List (Nat × String)) (st : JsState) :
    ∃ ct rss, (doReads reads st).1
      = { st with currentlyTracking := ct, reactionSubscriptionSets := rss } := by
  induction reads generalizing st with
  | nil => exact ⟨_, _, rfl⟩
  | cons hd rest ih =>
      obtain ⟨o, k⟩ := hd
      obtain ⟨c1, r1, h1⟩ := proxyGet_shape o k st
      obtain ⟨c2, r2, h2⟩ := ih (proxyGet o k st).1
      refine ⟨c2, r2, ?_⟩
      show (doReads rest (proxyGet o k st).1).1 = _
      rw [h2, h1]

theorem setField_shape (st : JsState) (o : Nat) (k : String) (v : JsValue) :
    ∃ obs, setField st o k v = { st with objects := obs } := by
  unfold setField
  split
  · exact ⟨_, rfl⟩
  · split
    · exact ⟨_, rfl⟩
    · exact ⟨_, rfl⟩

theorem mintSetIfMissing_shape (st : JsState) (o : Nat) (obj : JsObject) (k : String) :
    ∃ obs sh nsid, mintSetIfMissing st o obj k
      = { st with objects := obs, setsHeap := sh, nextSetId := nsid } := by
  unfold mintSetIfMissing
  split
  · exact ⟨_, _, _, rfl⟩
  · exact ⟨_, _, _, rfl⟩

/-! ## Claim theorems -/

/-- C1 (counterexample): a reaction does NOT lose the subscriptions of its
previous tracking run.  Reaction 7 collects only field handle 0 on its
first run and only field handle 1 on its second run; after the second
`completeTracking`, the claim says reaction 7 belongs exactly to the
reaction-sets collected during that run (handle 1 only) — but it is still
a member of handle 0's reaction-set. -/
theorem c1_counterexample :
    membersOf c1Final 0 = [7] ∧ membersOf c1Final 1 = [7] := by decide

/-- C1 (amended): `completeTracking` adds the open frame's reaction to
every reaction-set collected during this run and leaves every other
reaction-set untouched — in particular, subscriptions collected on
earlier runs but not re-collected this run are retained, not removed
(only `dispose` removes them). -/
theorem c1_amended_subscriptions (st : JsState) (f : Nat) (collected : List Nat)
    (herr : st.err = none) (hframe : st.currentlyTracking = some (f, collected)) :
    (∀ sid ∈ collected, f ∈ membersOf (completeTracking st) sid) ∧
    (∀ sid, sid ∉ collected → membersOf (completeTracking st) sid = membersOf st sid) ∧
    (completeTracking st).currentlyTracking = none := by
  have hct : completeTracking st
      = { st with setsHeap := addToSets collected f st.setsHeap,
                  currentlyTracking := none } := by
    unfold completeTracking
    rw [herr, hframe]
    rfl
  refine ⟨?_, ?_, ?_⟩
  · intro sid hs
    rw [hct]
    simpa [membersOf] using (addToSets_spec collected f st.setsHeap sid).1 hs
  · intro sid hs
    rw [hct]
    simp only [membersOf]
    rw [(addToSets_spec collected f st.setsHeap sid).2 hs]
  · rw [hct]

/-- C1 (amended, witness): in `c1WitSt` the frame for reaction 7 collected
handle 0 only; completing adds 7 to set 0 and leaves set 1 (which holds
reaction 9 from before) untouched. -/
theorem c1_amended_subscriptions_witness :
    7 ∈ membersOf (completeTracking c1WitSt) 0 ∧
    membersOf (completeTracking c1WitSt) 1 = membersOf c1WitSt 1 := by
  refine ⟨(c1_amended_subscriptions c1WitSt 7 [0] rfl rfl).1 0 (by decide),
          (c1_amended_subscriptions c1WitSt 7 [0] rfl rfl).2.1 1 (by decide)⟩

/-- C7 (counterexample): `beginTracking` called while a frame is already
open (`c7Open` has reaction 1 mid-run) does not raise any error — it
silently replaces the open frame with the new one, contrary to the claim
that it fails fatally. -/
theorem c7_counterexample :
    c7Open.currentlyTracking = some (1, [0]) ∧
    (beginTracking 2 c7Open).err = none ∧
    (beginTracking 2 c7Open).currentlyTracking = some (2, []) := by decide

/-- C7 (amended): `beginTracking` never fails: whether or not a frame is
open, it succeeds and installs a fresh frame for the given reaction,
silently discarding any previously open frame. -/
theorem c7_amended_silent_replace (st : JsState) (f : Nat) (herr : st.err = none) :
    (beginTracking f st).err = none ∧
    (beginTracking f st).currentlyTracking = some (f, []) := by
  unfold beginTracking
  rw [herr]
  simp only [Option.isSome_none, Bool.false_eq_true, if_false]
  split <;> simp

/-- C7 (amended, witness). -/
theorem c7_amended_silent_replace_witness :
    (beginTracking 2 c7Open).err = none ∧
    (beginTracking 2 c7Open).currentlyTracking = some (2, []) :=
  c7_amended_silent_replace c7Open 2 rfl

/-- C2 (code-bug evaluation): `observable(observable({a: 1}))` returns a
fresh proxy (heap id 2) distinct from `observable({a: 1})` (heap id 1):
the source's guard `!Object.hasOwnProperty(PROPERTY_REACTIONS)` tests the
`Object` constructor rather than `val`, so it never detects an
already-wrapped value and re-wraps it, contradicting the function's own
documentation ("if it's already observable, this function does nothing"). -/
theorem c2_rewrap_not_identity :
    c2P1.2 = .vRef 1 ∧ c2P2.2 = .vRef 2 ∧ c2P2.2 ≠ c2P1.2 ∧ c2P2.1.err = none := by
  decide

/-- C5: writing a value that is `===`-identical to the stored one is a
complete no-op: nothing is published, no reaction-set is touched, and the
whole runtime state is returned unchanged. -/
theorem c5_no_op_write (n : Nat) (st : JsState) (o : Nat) (obj : JsObject)
    (k : String) (v : JsValue)
    (herr : st.err = none) (hobj : alookup st.objects o = some obj)
    (hstored : rawGetF obj k = v) :
    run (n + 1) (.setP o k v) st = (st, .vUndefined) := by
  simp [run, runBody, herr, hobj, hstored]

/-- C5 (witness): re-assigning `5` to the field `x` (stored value `5`,
handle 0 subscribed to by reaction 4) changes nothing. -/
theorem c5_no_op_write_witness :
    run 3 (.setP 0 "x" (.vNum 5)) c5St = (c5St, .vUndefined) :=
  c5_no_op_write 2 c5St 0 c5Obj "x" (.vNum 5) rfl rfl rfl

/-- C3 (counterexample): the diamond `c1 = computed(obs.bar)`,
`c2 = computed(obs.other)`, `c3 = computed(c1() + c2())` with one action
mutating both `obs.bar` and `obs.other`.  The combining reaction (id 2)
has fired once before the action; after the action it has fired three
times — i.e. twice during the single action, not once as claimed. -/
theorem c3_counterexample :
    c3S4.2 = (7, 2) ∧
    c3Pre.fireLog.count 2 = 1 ∧
    c3Post.fireLog.count 2 = 3 ∧
    c3Post.err = none := by decide

/-- C3 (amended): the action fires the two constituent reactions (ids 0
and 1) once each — that deduplication works — but each constituent's
cache write republishes immediately (the batch was already cleared by
`completeAction`), so the combining reaction (id 2) fires exactly twice,
once per constituent cache update. -/
theorem c3_amended_fires_twice :
    c3Post.fireLog = c3Pre.fireLog ++ [0, 2, 1, 2] ∧
    c3Post.fireLog.count 2 = c3Pre.fireLog.count 2 + 2 := by decide

/-- C4 (counterexample): inside an action, assigning the composite
`{a: 1}` to the brand-new field `k` of a wrapped object ends with the
batch containing BOTH the parent handle (set 0) and `k`'s own freshly
minted handle (set 1): the recursive wrap of the assigned value publishes
to `k`'s handle (it is the child's parent reaction-set) once per copied
key, before the new-field escalation publishes to the parent handle.  The
claim's "and not to k's own field handle" is therefore false. -/
theorem c4_counterexample :
    (alookup c4Res.objects 0).map (fun ob => alookup ob.propertyReactions "k")
        = some (some 1) ∧
    c4Res.currentActionReactionSets = some [some 1, some 0] ∧
    c4Res.err = none := by decide

/-- The state returned by the element-read step of `observable`'s copy
loops differs from its input at most in the tracking frame and the
subscription records. -/
theorem readStep_shape (o : Nat) (k : String) (st : JsState) :
    ∃ ct rss, (readStep o k st).1
      = { st with currentlyTracking := ct, reactionSubscriptionSets := rss } := by
  unfold readStep
  cases halo : alookup st.objects o with
  | none => exact ⟨st.currentlyTracking, st.reactionSubscriptionSets, rfl⟩
  | some s =>
      by_cases hp : s.isProxy
      · simpa [hp] using proxyGet_shape o k st
      · exact ⟨st.currentlyTracking, st.reactionSubscriptionSets, by simp [hp]⟩

/-- Pushing onto a wrapped array whose parent reaction-set is absent,
outside of any action, throws: the substitute `push` calls
`publish(target[PARENT_REACTIONS])` with `undefined`, and `publish`
iterates it. -/
theorem pushM_throws (m : Nat) (st : JsState) (dst : Nat) (v : JsValue) (dobj : JsObject)
    (herr : st.err = none) (hbatch : st.currentActionReactionSets = none)
    (hdst : alookup st.objects dst = some dobj) (hpar : dobj.parentReactions = none) :
    ((run (m + 2) (.pushM dst v) st).1).err = some typeErrorMsg := by
  show ((run (m + 1 + 1) (.pushM dst v) st).1).err = some typeErrorMsg
  simp only [run, herr, Option.isSome_none, Bool.false_eq_true, if_false]
  simp [runBody, run, hdst, hpar, hbatch, herr]

/-- `observable`'s array copy loop throws on its very first iteration
when the destination wrapper has no parent reaction-set and no action is
open. -/
theorem copyPush_head_throws (m : Nat) (st : JsState) (o dst : Nat) (k0 : String)
    (krest : List String) (dobj : JsObject)
    (herr : st.err = none) (hbatch : st.currentActionReactionSets = none)
    (hdst : alookup st.objects dst = some dobj) (hpar : dobj.parentReactions = none) :
    ((run (m + 3) (.copyPush o dst (k0 :: krest)) st).1).err = some typeErrorMsg := by
  show ((run (m + 2 + 1) (.copyPush o dst (k0 :: krest)) st).1).err = some typeErrorMsg
  obtain ⟨ct, rss, hshape⟩ := readStep_shape o k0 st
  have herr2 : (readStep o k0 st).1.err = none := by rw [hshape]; exact herr
  have hbatch2 : (readStep o k0 st).1.currentActionReactionSets = none := by
    rw [hshape]; exact hbatch
  have hdst2 : alookup (readStep o k0 st).1.objects dst = some dobj := by
    rw [hshape]; exact hdst
  have hpush := pushM_throws m (readStep o k0 st).1 dst (readStep o k0 st).2 dobj
    herr2 hbatch2 hdst2 hpar
  have harm : run (m + 2 + 1) (.copyPush o dst (k0 :: krest)) st
      = run (m + 2) (.copyPush o dst krest)
          (run (m + 2) (.pushM dst (readStep o k0 st).2) (readStep o k0 st).1).1 := by
    show (if st.err.isSome then (st, JsValue.vUndefined)
          else runBody (run (m + 2)) (.copyPush o dst (k0 :: krest)) st) = _
    rw [herr]
    rfl
  rw [harm, run_err_absorb _ _ _ (by rw [hpush]; rfl)]
  exact hpush

/-- C10: `observable` applied at the root (no `parentReactionSet`) to a
non-empty array, outside of any action, throws a `TypeError` and never
returns normally: the copy loop's first `proxy.push(val[0])` invokes the
intercepted `push`, which publishes to the wrapper's absent (`undefined`)
parent reaction-set, and `publish` iterates that `undefined` set. -/
theorem c10_root_array_throws (n : Nat) (st : JsState) (o : Nat) (src : JsObject)
    (k0 : String) (v0 : JsValue) (rest : List (String × JsValue))
    (herr : st.err = none) (hbatch : st.currentActionReactionSets = none)
    (hobj : alookup st.objects o = some src) (harr : src.isArray = true)
    (hfields : src.fields = (k0, v0) :: rest) :
    ((run (n + 4) (.observable (.vRef o) none) st).1).err = some typeErrorMsg := by
  have harm : run (n + 4) (.observable (.vRef o) none) st
      = ((run (n + 3) (.copyPush o st.nextObjId (src.fields.map Prod.fst))
          { st with objects := aset st.objects st.nextObjId (wrapShell src none),
                    nextObjId := st.nextObjId + 1 }).1, .vRef st.nextObjId) := by
    show (if st.err.isSome then ((st : JsState), JsValue.vUndefined)
          else runBody (run (n + 3)) (.observable (.vRef o) none) st) = _
    rw [herr]
    simp only [runBody, objectHasOwnPropertyPROPERTYREACTIONS, Bool.false_eq_true,
      if_false, hobj, harr, if_true, Option.isSome_none]
    rw [herr]
  have hkeys : src.fields.map Prod.fst = k0 :: rest.map Prod.fst := by
    rw [hfields]; rfl
  rw [harm, hkeys]
  exact copyPush_head_throws n _ o st.nextObjId k0 (rest.map Prod.fst)
    (wrapShell src none) herr hbatch (alookup_aset_self _ _ _) rfl

/-- C10 (witness): wrapping the root array `[5]` outside an action
throws. -/
theorem c10_root_array_throws_witness :
    ((run 4 (.observable (.vRef 0) none) c10St0).1).err = some typeErrorMsg :=
  c10_root_array_throws 0 c10St0 0 c10Arr "0" (.vNum 5) [] rfl rfl rfl rfl rfl

/-- With no pending exception, the proxy `get` trap returns the raw
stored value (tracking does not alter it). -/
theorem proxyGet_val_of_err_none (o : Nat) (k : String) (st : JsState)
    (herr : st.err = none) :
    (proxyGet o k st).2
      = (match alookup st.objects o with
          | some obj => rawGetF obj k
          | none => .vUndefined) := by
  unfold proxyGet
  rw [herr]
  simp only [Option.isSome_none, Bool.false_eq_true, if_false]
  cases halo : alookup st.objects o with
  | none => rfl
  | some obj => cases halo2 : alookup obj.propertyReactions k <;> simp [halo2]

/-- The values produced by a tracked function's reads are a pure function
of the heap. -/
theorem doReads_vals (reads : List (Nat × String)) (st : JsState)
    (herr : st.err = none) :
    (doReads reads st).2 = readVals st.objects reads := by
  induction reads generalizing st with
  | nil => rfl
  | cons hd rest ih =>
      obtain ⟨o, k⟩ := hd
      obtain ⟨ct, rss, hshape⟩ := proxyGet_shape o k st
      have herr1 : (proxyGet o k st).1.err = none := by rw [hshape]; exact herr
      have hobjs : (proxyGet o k st).1.objects = st.objects := by rw [hshape]
      show (proxyGet o k st).2 :: (doReads rest (proxyGet o k st).1).2
          = readVals st.objects ((o, k) :: rest)
      rw [ih _ herr1, hobjs, proxyGet_val_of_err_none o k st herr]
      rfl

/-- Running a reaction whose effect function is an ordinary effect logs
exactly one entry: the value its tracked function computes from the
heap at that moment. -/
theorem runBody_runR_log (rec : Act → JsState → JsState × JsValue) (r : Nat)
    (st : JsState) (body : ReactionBody)
    (hb : alookup st.bodies r = some body)
    (heff : body.effect = .logEffect) (herr : st.err = none) :
    (runBody rec (.runR r) st).1.effectLog
      = st.effectLog ++ [(r, body.compute (readVals st.objects body.reads))] := by
  simp only [runBody, hb, heff]
  obtain ⟨cB, rB, hB⟩ :=
    beginTracking_shape r { st with fireLog := st.fireLog ++ [r] }
  have hAerr : (beginTracking r { st with fireLog := st.fireLog ++ [r] }).err = none := by
    rw [hB]; exact herr
  have hvals : (doReads body.reads
      (beginTracking r { st with fireLog := st.fireLog ++ [r] })).2
      = readVals st.objects body.reads := by
    rw [doReads_vals _ _ hAerr, hB]
  have hlog : (completeTracking (doReads body.reads
      (beginTracking r { st with fireLog := st.fireLog ++ [r] })).1).effectLog
      = st.effectLog := by
    obtain ⟨sh, ct2, hC⟩ := completeTracking_shape
      (doReads body.reads (beginTracking r { st with fireLog := st.fireLog ++ [r] })).1
    obtain ⟨cD, rD, hD⟩ :=
      doReads_shape body.reads (beginTracking r { st with fireLog := st.fireLog ++ [r] })
    rw [hC, hD, hB]
  rw [hvals, hlog]

/-- C6: `reaction(trackedFn, effectFn)` invokes `effectFn` exactly once
before returning — the effect log grows by exactly the one entry
`(new reaction id, value)` — and the value passed is the one `trackedFn`
produces on the heap during that same call. -/
theorem c6_immediate_run (n : Nat) (body : ReactionBody) (st : JsState)
    (herr : st.err = none) (heff : body.effect = .logEffect) :
    ((reaction (n + 1) body st).1).effectLog
      = st.effectLog ++ [(st.nextReactionId, body.compute (readVals st.objects body.reads))] ∧
    (reaction (n + 1) body st).2 = st.nextReactionId := by
  have hre : reaction (n + 1) body st
      = ((run (n + 1) (.runR st.nextReactionId)
          { st with bodies := aset st.bodies st.nextReactionId body,
                    nextReactionId := st.nextReactionId + 1 }).1, st.nextReactionId) := by
    unfold reaction
    rw [herr]
    rfl
  have hrun : run (n + 1) (.runR st.nextReactionId)
      { st with bodies := aset st.bodies st.nextReactionId body,
                nextReactionId := st.nextReactionId + 1 }
      = runBody (run n) (.runR st.nextReactionId)
        { st with bodies := aset st.bodies st.nextReactionId body,
                  nextReactionId := st.nextReactionId + 1 } := by
    show (if st.err.isSome then _ else _) = _
    rw [herr]
    rfl
  constructor
  · rw [hre, hrun]
    exact runBody_runR_log (run n) st.nextReactionId _ body
      (alookup_aset_self _ _ _) heff herr
  · rw [hre]

/-- `observable` on a primitive (or `null`) returns the value and the
state unchanged. -/
theorem observable_prim (n : Nat) (v : JsValue) (p : Option Nat) (st : JsState)
    (hprim : ∀ m, v ≠ .vRef m) (herr : st.err = none) :
    run (n + 1) (.observable v p) st = (st, v) := by
  cases v with
  | vRef m => exact absurd rfl (hprim m)
  | vUndefined => simp [run, runBody, herr]
  | vNull => simp [run, runBody, herr]
  | vBool b => simp [run, runBody, herr]
  | vNum m => simp [run, runBody, herr]
  | vStr sv => simp [run, runBody, herr]

/-- `mintSetIfMissing` when the property has no reaction-set yet. -/
theorem mintSetIfMissing_of_none (st : JsState) (o : Nat) (obj : JsObject) (k : String)
    (hpr : alookup obj.propertyReactions k = none) :
    mintSetIfMissing st o obj k
      = { st with setsHeap := aset st.setsHeap st.nextSetId [],
                  nextSetId := st.nextSetId + 1,
                  objects := aset st.objects o (withPropHandle obj k st.nextSetId) } := by
  unfold mintSetIfMissing withPropHandle
  rw [hpr]

/-- `mintSetIfMissing` when the property already has a reaction-set. -/
theorem mintSetIfMissing_of_some (st : JsState) (o : Nat) (obj : JsObject) (k : String)
    (sid : Nat) (hpr : alookup obj.propertyReactions k = some sid) :
    mintSetIfMissing st o obj k = st := by
  unfold mintSetIfMissing
  rw [hpr]

/-- `setField` on an existing object. -/
theorem setField_of_some (st : JsState) (o : Nat) (k : String) (v : JsValue)
    (obj : JsObject) (herr : st.err = none) (hobj : alookup st.objects o = some obj) :
    setField st o k v = { st with objects := aset st.objects o (withFieldVal obj k v) } := by
  unfold setField withFieldVal
  rw [herr, hobj]
  rfl

/-- `publish` inside an action defers: it only adds the reaction-set
reference to the batch. -/
theorem publish_batched (m : Nat) (st : JsState) (s : Option Nat) (B : List (Option Nat))
    (herr : st.err = none) (hbatch : st.currentActionReactionSets = some B) :
    run (m + 1) (.publish s) st
      = ({ st with currentActionReactionSets := some (addUnique B s) }, .vUndefined) := by
  show (if st.err.isSome then _ else _) = _
  rw [herr]
  simp only [Option.isSome_none, Bool.false_eq_true, if_false, runBody, hbatch]
  rw [herr]

theorem withPropHandle_propertyReactions (obj : JsObject) (k : String) (sid : Nat) :
    (withPropHandle obj k sid).propertyReactions = aset obj.propertyReactions k sid := rfl

theorem withPropHandle_parentReactions (obj : JsObject) (k : String) (sid : Nat) :
    (withPropHandle obj k sid).parentReactions = obj.parentReactions := rfl

theorem withFieldVal_parentReactions (obj : JsObject) (k : String) (v : JsValue) :
    (withFieldVal obj k v).parentReactions = obj.parentReactions := rfl

theorem withFieldVal_propertyReactions (obj : JsObject) (k : String) (v : JsValue) :
    (withFieldVal obj k v).propertyReactions = obj.propertyReactions := rfl

/-- C4 (amended): writing a changed primitive value `v` to field `k` of a
wrapped object inside an action publishes exactly one reaction-set: the
parent reaction-set when `k` is a brand-new field (and then `k`'s freshly
minted own handle is NOT published), and `k`'s own field handle when `k`
already existed.  (When `v` is a composite, the recursive wrap
additionally publishes `k`'s own handle, once per key of `v` — see the
counterexample; that is the only amendment the counterexample forces.) -/
theorem c4_amended_publish_target (n : Nat) (st : JsState) (o : Nat) (obj : JsObject)
    (k : String) (v : JsValue) (B : List (Option Nat))
    (herr : st.err = none) (hbatch : st.currentActionReactionSets = some B)
    (hobj : alookup st.objects o = some obj) (hprim : ∀ m, v ≠ .vRef m) :
    ((alookup obj.fields k = none) → v ≠ .vUndefined →
      alookup obj.propertyReactions k = none →
      ∀ p, obj.parentReactions = some p →
        ((run (n + 2) (.setP o k v) st).1.currentActionReactionSets
            = some (addUnique B (some p)) ∧
         (run (n + 2) (.setP o k v) st).1.fireLog = st.fireLog ∧
         (some st.nextSetId ∉ B → st.nextSetId ≠ p →
           some st.nextSetId ∉ addUnique B (some p))))
    ∧ (∀ w sid, alookup obj.fields k = some w → w ≠ v →
        alookup obj.propertyReactions k = some sid →
        ((run (n + 2) (.setP o k v) st).1.currentActionReactionSets
            = some (addUnique B (some sid)) ∧
         (run (n + 2) (.setP o k v) st).1.fireLog = st.fireLog)) := by
  have harm : run (n + 2) (.setP o k v) st = runBody (run (n + 1)) (.setP o k v) st := by
    show (if st.err.isSome then _ else _) = _
    rw [herr]
    rfl
  constructor
  · intro hfield hv hpr p hpar
    have hne : ¬ (rawGetF obj k = v) := by
      simp only [rawGetF, hfield, Option.getD_none]
      exact fun h => hv h.symm
    have hres : run (n + 2) (.setP o k v) st
        = ({ st with setsHeap := aset st.setsHeap st.nextSetId [],
                     nextSetId := st.nextSetId + 1,
                     objects := aset (aset st.objects o (withPropHandle obj k st.nextSetId)) o
                       (withFieldVal (withPropHandle obj k st.nextSetId) k v),
                     currentActionReactionSets := some (addUnique B (some p)) },
           .vUndefined) := by
      rw [harm]
      simp only [runBody, hobj, if_neg hne, hfield, Option.isNone_none, if_true]
      rw [mintSetIfMissing_of_none st o obj k hpr]
      simp only [alookup_aset_self, Option.some_bind, withPropHandle_propertyReactions]
      generalize hM : ({ st with setsHeap := aset st.setsHeap st.nextSetId [],
                                 nextSetId := st.nextSetId + 1,
                                 objects := aset st.objects o (withPropHandle obj k st.nextSetId) }
          : JsState) = M
      have hMerr : M.err = none := by rw [← hM]; exact herr
      have hMobj : alookup M.objects o = some (withPropHandle obj k st.nextSetId) := by
        rw [← hM]; exact alookup_aset_self _ _ _
      have hMbatch : M.currentActionReactionSets = some B := by rw [← hM]; exact hbatch
      rw [observable_prim n v (some st.nextSetId) M hprim hMerr]
      dsimp only
      rw [setField_of_some M o k v (withPropHandle obj k st.nextSetId) hMerr hMobj]
      simp only [alookup_aset_self, Option.some_bind, withFieldVal_parentReactions,
        withPropHandle_parentReactions]
      rw [hpar]
      dsimp only
      rw [publish_batched n
          { M with objects := aset M.objects o (withFieldVal (withPropHandle obj k st.nextSetId) k v) }
          (some p) B hMerr hMbatch]
      subst hM
      rfl
    refine ⟨by rw [hres], by rw [hres], ?_⟩
    intro hf1 hf2
    exact not_mem_addUnique hf1 (fun h => hf2 (Option.some.inj h))
  · intro w sid hfield hw hpr
    have hne : ¬ (rawGetF obj k = v) := by
      simp only [rawGetF, hfield, Option.getD_some]
      exact hw
    have hres : run (n + 2) (.setP o k v) st
        = ({ st with objects := aset st.objects o (withFieldVal obj k v),
                     currentActionReactionSets := some (addUnique B (some sid)) },
           .vUndefined) := by
      rw [harm]
      simp only [runBody, hobj, if_neg hne, hfield, Option.isNone_some,
        Bool.false_eq_true, if_false]
      rw [mintSetIfMissing_of_some st o obj k sid hpr]
      simp only [hobj, Option.some_bind, hpr]
      rw [observable_prim n v (some sid) st hprim herr]
      dsimp only
      rw [setField_of_some st o k v obj herr hobj]
      simp only [alookup_aset_self, Option.some_bind, withFieldVal_propertyReactions, hpr]
      rw [publish_batched n
          { st with objects := aset st.objects o (withFieldVal obj k v) }
          (some sid) B herr hbatch]
    exact ⟨by rw [hres], by rw [hres]⟩

/-- C4 (amended, witness): assigning the primitive `9` to the brand-new
field `k` inside an action batches exactly the parent handle (set 0), and
the freshly minted handle for `k` (set 1) is not in the batch. -/
theorem c4_amended_publish_target_witness :
    (run 2 (.setP 0 "k" (.vNum 9)) c4WSt).1.currentActionReactionSets = some [some 0] ∧
    (run 2 (.setP 0 "k" (.vNum 9)) c4WSt).1.fireLog = [] ∧
    some (1 : Nat) ∉ addUnique ([] : List (Option Nat)) (some 0) := by
  have h := (c4_amended_publish_target 0 c4WSt 0 c4T "k" (.vNum 9) [] rfl rfl rfl
      (fun m h => JsValue.noConfusion h)).1 rfl
      (fun h => JsValue.noConfusion h) rfl 0 rfl
  refine ⟨?_, h.2.1, h.2.2 (by decide) (by decide)⟩
  rw [h.1]
  rfl

/-- C6 (witness): `reaction(() => obj.x, log)` on `{x: 42}` logs exactly
`(0, 42)` before returning, and the handle is reaction id 0. -/
theorem c6_immediate_run_witness :
    ((reaction 3 c6Body c6St).1).effectLog = [(0, JsValue.vNum 42)] ∧
    (reaction 3 c6Body c6St).2 = 0 := by
  have h := c6_immediate_run 2 c6Body c6St rfl rfl
  exact ⟨by rw [h.1]; rfl, h.2⟩

/-! ## Batch stability (for C9) -/

theorem beginTracking_batch (f : Nat) (st : JsState) :
    (beginTracking f st).currentActionReactionSets = st.currentActionReactionSets := by
  obtain ⟨c, r, h⟩ := beginTracking_shape f st
  rw [h]

theorem completeTracking_batch (st : JsState) :
    (completeTracking st).currentActionReactionSets = st.currentActionReactionSets := by
  obtain ⟨sh, c, h⟩ := completeTracking_shape st
  rw [h]

theorem doReads_batch (reads : List (Nat × String)) (st : JsState) :
    (doReads reads st).1.currentActionReactionSets = st.currentActionReactionSets := by
  obtain ⟨c, r, h⟩ := doReads_shape reads st
  rw [h]

theorem readStep_batch (o : Nat) (k : String) (st : JsState) :
    (readStep o k st).1.currentActionReactionSets = st.currentActionReactionSets := by
  obtain ⟨c, r, h⟩ := readStep_shape o k st
  rw [h]

theorem setField_batch (st : JsState) (o : Nat) (k : String) (v : JsValue) :
    (setField st o k v).currentActionReactionSets = st.currentActionReactionSets := by
  obtain ⟨obs, h⟩ := setField_shape st o k v
  rw [h]

theorem mintSetIfMissing_batch (st : JsState) (o : Nat) (obj : JsObject) (k : String) :
    (mintSetIfMissing st o obj k).currentActionReactionSets
      = st.currentActionReactionSets := by
  obtain ⟨obs, sh, nsid, h⟩ := mintSetIfMissing_shape st o obj k
  rw [h]

/-- While a batch is open, no instruction reachable from a mutation or a
wrapped call closes it: only `completeAction` (and the `action` wrapper
that ends with it) sets the currently-batching set back to `none`. -/
theorem run_batch_isSome (fuel : Nat) :
    ∀ (a : Act) (st : JsState), Act.isActionish a = false →
      st.currentActionReactionSets.isSome →
      ((run fuel a st).1).currentActionReactionSets.isSome := by
  induction fuel with
  | zero =>
      intro a st _ hb
      unfold run
      split <;> simpa using hb
  | succ n ih =>
      intro a st hact hb
      show ((if st.err.isSome then (st, JsValue.vUndefined)
            else runBody (run n) a st).1).currentActionReactionSets.isSome
      by_cases he : st.err.isSome
      · simpa [he] using hb
      · rw [if_neg he]
        cases a with
        | observable val parent =>
            cases val with
            | vRef o =>
                simp only [runBody, objectHasOwnPropertyPROPERTYREACTIONS,
                  Bool.false_eq_true, if_false]
                cases halo : alookup st.objects o with
                | none => simpa using hb
                | some src =>
                    by_cases harr : src.isArray = true
                    · simp only [harr, if_true]
                      exact ih _ _ rfl (by simpa using hb)
                    · simp only [harr, Bool.false_eq_true, if_false]
                      exact ih _ _ rfl (by simpa using hb)
            | vUndefined => simpa [runBody] using hb
            | vNull => simpa [runBody] using hb
            | vBool b => simpa [runBody] using hb
            | vNum m => simpa [runBody] using hb
            | vStr sv => simpa [runBody] using hb
        | copyInto src dst keys =>
            cases keys with
            | nil => simpa [runBody] using hb
            | cons k rest =>
                simp only [runBody]
                refine ih _ _ rfl (ih _ _ rfl ?_)
                rw [readStep_batch]
                exact hb
        | copyPush src dst keys =>
            cases keys with
            | nil => simpa [runBody] using hb
            | cons k rest =>
                simp only [runBody]
                refine ih _ _ rfl (ih _ _ rfl ?_)
                rw [readStep_batch]
                exact hb
        | pushM o v =>
            simp only [runBody]
            cases halo : alookup st.objects o with
            | none => simpa using hb
            | some obj => exact ih _ _ rfl (by simpa using hb)
        | setP o k v =>
            simp only [runBody]
            cases halo : alookup st.objects o with
            | none => simpa using hb
            | some obj =>
                by_cases hraw : rawGetF obj k = v
                · simpa [hraw] using hb
                · simp only [hraw, if_false]
                  have hb1 : (mintSetIfMissing st o obj k).currentActionReactionSets.isSome := by
                    rw [mintSetIfMissing_batch]; exact hb
                  have hb2 := ih (.observable v ((alookup (mintSetIfMissing st o obj k).objects o).bind
                      fun ob => alookup ob.propertyReactions k)) _ rfl hb1
                  have hb3 : (setField (run n (.observable v
                      ((alookup (mintSetIfMissing st o obj k).objects o).bind
                        fun ob => alookup ob.propertyReactions k))
                      (mintSetIfMissing st o obj k)).1 o k
                      (run n (.observable v ((alookup (mintSetIfMissing st o obj k).objects o).bind
                        fun ob => alookup ob.propertyReactions k))
                      (mintSetIfMissing st o obj k)).2).currentActionReactionSets.isSome := by
                    rw [setField_batch]; exact hb2
                  by_cases hnp : (alookup obj.fields k).isNone
                  · simp only [hnp, if_true]
                    split
                    · exact ih _ _ rfl hb3
                    · exact hb3
                  · simp only [hnp, Bool.false_eq_true, if_false]
                    exact ih _ _ rfl hb3
        | publish s =>
            simp only [runBody]
            obtain ⟨batch, hbs⟩ := Option.isSome_iff_exists.mp hb
            simp [hbs]
        | publishAll ss =>
            simp only [runBody]
            obtain ⟨batch, hbs⟩ := Option.isSome_iff_exists.mp hb
            simp [hbs]
        | fire rs =>
            cases rs with
            | nil => simpa [runBody] using hb
            | cons r rest =>
                simp only [runBody]
                exact ih _ _ rfl (ih _ _ rfl hb)
        | runR r =>
            simp only [runBody]
            cases hbody : alookup st.bodies r with
            | none => simpa using hb
            | some body =>
                have hb1 : (completeTracking (doReads body.reads
                    (beginTracking r { st with fireLog := st.fireLog ++ [r] })).1).currentActionReactionSets.isSome := by
                  rw [completeTracking_batch, doReads_batch, beginTracking_batch]
                  exact hb
                cases heff : body.effect with
                | logEffect =>
                    simp only [heff]
                    simpa using hb1
                | writeCache co ck =>
                    simp only [heff]
                    exact ih _ _ rfl hb1
        | cmds cs =>
            cases cs with
            | nil => simpa [runBody] using hb
            | cons c rest =>
                simp only [runBody]
                cases c with
                | setProp o k v => exact ih _ _ rfl (ih _ _ rfl hb)
                | throwJs m => exact ih _ _ rfl (by simpa using hb)
        | completeA => simp [Act.isActionish] at hact
        | actionA cs => simp [Act.isActionish] at hact

/-- C9: when the function wrapped by `action` throws, `completeAction`
never executes — the wrapper is `beginAction(); fn(); completeAction();`
with no try/finally — so the exception propagates with the
currently-batching set still open, and every subsequent `publish` outside
of any action is silently deferred into that stale batch instead of
firing its reactions. -/
theorem c9_action_throw (n : Nat) (cs : List Cmd) (st : JsState) (e : String)
    (herr : st.err = none) (hout : st.currentActionReactionSets = none)
    (hmid : ((run n (.cmds cs) (beginAction st)).1).err = some e) :
    run (n + 1) (.actionA cs) st = ((run n (.cmds cs) (beginAction st)).1, .vUndefined)
    ∧ ∃ b, ((run n (.cmds cs) (beginAction st)).1).currentActionReactionSets = some b
      ∧ ∀ m sid,
          run (m + 1) (.publish (some sid))
            { (run n (.cmds cs) (beginAction st)).1 with err := none }
          = ({ (run n (.cmds cs) (beginAction st)).1 with
                 err := none,
                 currentActionReactionSets := some (addUnique b (some sid)) },
             .vUndefined) := by
  have h1 : run (n + 1) (.actionA cs) st
      = run n .completeA (run n (.cmds cs) (beginAction st)).1 := by
    show (if st.err.isSome then _ else _) = _
    rw [herr]
    rfl
  have habs : run n .completeA (run n (.cmds cs) (beginAction st)).1
      = ((run n (.cmds cs) (beginAction st)).1, .vUndefined) :=
    run_err_absorb n _ _ (by rw [hmid]; rfl)
  have hba : beginAction st = { st with currentActionReactionSets := some [] } := by
    unfold beginAction
    rw [herr]
    rfl
  have hsome : ((run n (.cmds cs) (beginAction st)).1).currentActionReactionSets.isSome := by
    apply run_batch_isSome n (.cmds cs) (beginAction st) rfl
    rw [hba]
    rfl
  obtain ⟨b, hbs⟩ := Option.isSome_iff_exists.mp hsome
  refine ⟨h1.trans habs, b, hbs, ?_⟩
  intro m sid
  exact publish_batched m _ (some sid) b rfl hbs

/-- C9 (witness): `action(() => { throw "boom"; })()` on the empty state:
the wrapper returns with the error propagating and the batch still open;
a later `publish` of reaction-set 0 is deferred into the stale batch. -/
theorem c9_action_throw_witness :
    run (2 + 1) (.actionA [Cmd.throwJs "boom"]) ({} : JsState)
      = ((run 2 (.cmds [Cmd.throwJs "boom"]) (beginAction {})).1, .vUndefined)
    ∧ run (0 + 1) (.publish (some 0))
        { (run 2 (.cmds [Cmd.throwJs "boom"]) (beginAction {})).1 with err := none }
      = ({ (run 2 (.cmds [Cmd.throwJs "boom"]) (beginAction {})).1 with
             err := none,
             currentActionReactionSets := some [some 0] }, .vUndefined) := by
  obtain ⟨h1, b, hbs, hpub⟩ :=
    c9_action_throw 2 [Cmd.throwJs "boom"] {} "boom" rfl rfl (by decide)
  have hb : b = [] := by
    have h2 : ((run 2 (.cmds [Cmd.throwJs "boom"]) (beginAction {})).1).currentActionReactionSets
        = some [] := by decide
    exact Option.some.inj (hbs.symm.trans h2)
  subst hb
  exact ⟨h1, hpub 0 0⟩

/-! ## Preservation of non-subscription (for C8) -/

theorem track_frameOwner (sid : Nat) (st : JsState) :
    frameOwner (track sid st) = frameOwner st := by
  unfold track
  split
  · rfl
  · split
    · rfl
    · split <;> simp [frameOwner, *]

theorem proxyGet_frameOwner (o : Nat) (k : String) (st : JsState) :
    frameOwner (proxyGet o k st).1 = frameOwner st := by
  unfold proxyGet
  split
  · rfl
  · split
    · rfl
    · split
      · exact track_frameOwner _ _
      · rfl

theorem readStep_frameOwner (o : Nat) (k : String) (st : JsState) :
    frameOwner (readStep o k st).1 = frameOwner st := by
  unfold readStep
  split
  · rfl
  · split
    · exact proxyGet_frameOwner _ _ _
    · rfl

theorem doReads_frameOwner (reads : List (Nat × String)) (st : JsState) :
    frameOwner (doReads reads st).1 = frameOwner st := by
  induction reads generalizing st with
  | nil => rfl
  | cons hd rest ih =>
      obtain ⟨o, k⟩ := hd
      show frameOwner (doReads rest (proxyGet o k st).1).1 = frameOwner st
      rw [ih, proxyGet_frameOwner]

/-- The reaction-set heap is untouched by `track`. -/
theorem track_setsHeap (sid : Nat) (st : JsState) :
    (track sid st).setsHeap = st.setsHeap := by
  obtain ⟨c, r, h⟩ := track_shape sid st
  rw [h]

theorem proxyGet_setsHeap (o : Nat) (k : String) (st : JsState) :
    (proxyGet o k st).1.setsHeap = st.setsHeap := by
  obtain ⟨c, r, h⟩ := proxyGet_shape o k st
  rw [h]

theorem readStep_setsHeap (o : Nat) (k : String) (st : JsState) :
    (readStep o k st).1.setsHeap = st.setsHeap := by
  obtain ⟨c, r, h⟩ := readStep_shape o k st
  rw [h]

theorem doReads_setsHeap (reads : List (Nat × String)) (st : JsState) :
    (doReads reads st).1.setsHeap = st.setsHeap := by
  obtain ⟨c, r, h⟩ := doReads_shape reads st
  rw [h]

theorem readStep_fireLog (o : Nat) (k : String) (st : JsState) :
    (readStep o k st).1.fireLog = st.fireLog := by
  obtain ⟨c, r, h⟩ := readStep_shape o k st
  rw [h]

theorem beginTracking_fireLog (f : Nat) (st : JsState) :
    (beginTracking f st).fireLog = st.fireLog := by
  obtain ⟨c, r, h⟩ := beginTracking_shape f st
  rw [h]

theorem completeTracking_fireLog (st : JsState) :
    (completeTracking st).fireLog = st.fireLog := by
  obtain ⟨sh, c, h⟩ := completeTracking_shape st
  rw [h]

theorem doReads_fireLog (reads : List (Nat × String)) (st : JsState) :
    (doReads reads st).1.fireLog = st.fireLog := by
  obtain ⟨c, r, h⟩ := doReads_shape reads st
  rw [h]

theorem setField_fireLog (st : JsState) (o : Nat) (k : String) (v : JsValue) :
    (setField st o k v).fireLog = st.fireLog := by
  obtain ⟨obs, h⟩ := setField_shape st o k v
  rw [h]

theorem mintSetIfMissing_fireLog (st : JsState) (o : Nat) (obj : JsObject) (k : String) :
    (mintSetIfMissing st o obj k).fireLog = st.fireLog := by
  obtain ⟨obs, sh, nsid, h⟩ := mintSetIfMissing_shape st o obj k
  rw [h]

theorem notSub_track (r sid : Nat) (st : JsState) (h : NotSub r st) :
    NotSub r (track sid st) := by
  refine ⟨?_, ?_⟩
  · intro sid'
    show r ∉ membersOf (track sid st) sid'
    unfold membersOf
    rw [track_setsHeap]
    exact h.1 sid'
  · rw [track_frameOwner]
    exact h.2

theorem notSub_proxyGet (r o : Nat) (k : String) (st : JsState) (h : NotSub r st) :
    NotSub r (proxyGet o k st).1 := by
  refine ⟨?_, ?_⟩
  · intro sid'
    unfold membersOf
    rw [proxyGet_setsHeap]
    exact h.1 sid'
  · rw [proxyGet_frameOwner]
    exact h.2

theorem notSub_readStep (r o : Nat) (k : String) (st : JsState) (h : NotSub r st) :
    NotSub r (readStep o k st).1 := by
  refine ⟨?_, ?_⟩
  · intro sid'
    unfold membersOf
    rw [readStep_setsHeap]
    exact h.1 sid'
  · rw [readStep_frameOwner]
    exact h.2

theorem notSub_doReads (r : Nat) (reads : List (Nat × String)) (st : JsState)
    (h : NotSub r st) : NotSub r (doReads reads st).1 := by
  refine ⟨?_, ?_⟩
  · intro sid'
    unfold membersOf
    rw [doReads_setsHeap]
    exact h.1 sid'
  · rw [doReads_frameOwner]
    exact h.2

theorem notSub_beginTracking (r f : Nat) (st : JsState) (hf : f ≠ r)
    (h : NotSub r st) : NotSub r (beginTracking f st) := by
  obtain ⟨c, rss, hsh⟩ := beginTracking_shape f st
  refine ⟨?_, ?_⟩
  · intro sid'
    unfold membersOf
    rw [hsh]
    exact h.1 sid'
  · unfold beginTracking
    split
    · exact h.2
    · split <;>
        · show Option.map Prod.fst (some (f, [])) ≠ some r
          simpa using hf

/-- The `completeTracking` loop cannot introduce a reaction different
from the frame's owner into any reaction-set. -/
theorem addToSets_not_mem (sids : List Nat) (f r : Nat)
    (heap : List (Nat × List Nat)) (hfr : f ≠ r)
    (h : ∀ sid, r ∉ (alookup heap sid).getD []) :
    ∀ sid, r ∉ (alookup (addToSets sids f heap) sid).getD [] := by
  induction sids generalizing heap with
  | nil => exact h
  | cons s rest ih =>
      show ∀ sid, r ∉ (alookup (addToSets rest f
        (aset heap s (addUnique ((alookup heap s).getD []) f))) sid).getD []
      apply ih
      intro sid
      by_cases hs : sid = s
      · subst hs
        rw [alookup_aset_self]
        simpa using not_mem_addUnique (h sid) (Ne.symm hfr)
      · rw [alookup_aset_ne _ _ _ _ hs]
        exact h sid

theorem notSub_completeTracking (r : Nat) (st : JsState) (h : NotSub r st) :
    NotSub r (completeTracking st) := by
  unfold completeTracking
  split
  · exact h
  · split
    · exact h
    · rename_i func collected heq
      have hfr : func ≠ r := by
        intro hc
        exact h.2 (by rw [frameOwner, heq, hc]; rfl)
      refine ⟨?_, ?_⟩
      · intro sid
        show r ∉ (alookup (addToSets collected func st.setsHeap) sid).getD []
        exact addToSets_not_mem collected func r st.setsHeap hfr
          (fun sid' => h.1 sid') sid
      · show Option.map Prod.fst none ≠ some r
        simp

theorem notSub_setField (r : Nat) (st : JsState) (o : Nat) (k : String) (v : JsValue)
    (h : NotSub r st) : NotSub r (setField st o k v) := by
  obtain ⟨obs, hsh⟩ := setField_shape st o k v
  rw [hsh]
  exact h

theorem notSub_mintSetIfMissing (r : Nat) (st : JsState) (o : Nat) (obj : JsObject)
    (k : String) (h : NotSub r st) : NotSub r (mintSetIfMissing st o obj k) := by
  unfold mintSetIfMissing
  split
  · exact h
  · refine ⟨?_, h.2⟩
    intro sid
    show r ∉ (alookup (aset st.setsHeap st.nextSetId []) sid).getD []
    by_cases hs : sid = st.nextSetId
    · subst hs
      rw [alookup_aset_self]
      simp
    · rw [alookup_aset_ne _ _ _ _ hs]
      exact h.1 sid

theorem foldl_addUnique_not_mem {α : Type} [DecidableEq α] (l : List α) (acc : List α)
    (r : α) (hacc : r ∉ acc) (hl : r ∉ l) : r ∉ l.foldl addUnique acc := by
  induction l generalizing acc with
  | nil => exact hacc
  | cons x xs ih =>
      have hx : r ≠ x := fun hc => hl (by rw [hc]; exact List.mem_cons_self x xs)
      have hxs : r ∉ xs := fun hc => hl (List.mem_cons_of_mem x hc)
      exact ih (addUnique acc x) (not_mem_addUnique hacc hx) hxs

/-- The deduplicated union built by `publishAll` contains only reactions
that are members of some reaction-set (or were already accumulated). -/
theorem collectAll_not_mem (ss : List (Option Nat)) (heap : List (Nat × List Nat))
    (acc out : List Nat) (r : Nat) (hacc : r ∉ acc)
    (hmem : ∀ sid, r ∉ (alookup heap sid).getD [])
    (h : collectAll heap ss acc = some out) : r ∉ out := by
  induction ss generalizing acc with
  | nil =>
      simp only [collectAll] at h
      rw [← Option.some.inj h]
      exact hacc
  | cons s rest ih =>
      cases s with
      | none => simp [collectAll] at h
      | some sid =>
          simp only [collectAll] at h
          exact ih _ (foldl_addUnique_not_mem _ _ _ hacc (hmem sid)) h

/-- Once a reaction is in no reaction-set (and no frame is open for it),
no instruction can invoke it or re-subscribe it: the cascade of publishes
and re-runs triggered by any mutation fires only reactions that are in
some set, and tracking only ever adds the open frame's own reaction. -/
theorem run_notSub (fuel : Nat) :
    ∀ (a : Act) (st : JsState) (r : Nat), NotSub r st → fireSafeAct r a →
      NotSub r (run fuel a st).1 ∧ (run fuel a st).1.fireLog.count r = st.fireLog.count r := by
  induction fuel with
  | zero =>
      intro a st r hns _
      unfold run
      split
      · exact ⟨hns, rfl⟩
      · exact ⟨hns, rfl⟩
  | succ n ih =>
      intro a st r hns hfs
      have hrw : run (n + 1) a st
          = if st.err.isSome then (st, JsValue.vUndefined) else runBody (run n) a st := rfl
      rw [hrw]
      by_cases he : st.err.isSome
      · rw [if_pos he]
        exact ⟨hns, rfl⟩
      · rw [if_neg he]
        cases a with
        | observable val parent =>
            cases val with
            | vRef o =>
                simp only [runBody, objectHasOwnPropertyPROPERTYREACTIONS,
                  Bool.false_eq_true, if_false]
                cases halo : alookup st.objects o with
                | none => exact ⟨hns, rfl⟩
                | some src =>
                    by_cases harr : src.isArray = true
                    · simp only [harr, if_true]
                      refine ih _ _ r hns ?_
                      trivial
                    · simp only [harr, Bool.false_eq_true, if_false]
                      refine ih _ _ r hns ?_
                      trivial
            | vUndefined => exact ⟨hns, rfl⟩
            | vNull => exact ⟨hns, rfl⟩
            | vBool b => exact ⟨hns, rfl⟩
            | vNum m => exact ⟨hns, rfl⟩
            | vStr sv => exact ⟨hns, rfl⟩
        | copyInto src dst keys =>
            cases keys with
            | nil => exact ⟨hns, rfl⟩
            | cons k rest =>
                simp only [runBody]
                have h1 := ih (.setP dst k (readStep src k st).2) (readStep src k st).1 r
                  (notSub_readStep r src k st hns) trivial
                have h2 := ih (.copyInto src dst rest) _ r h1.1 trivial
                refine ⟨h2.1, ?_⟩
                rw [h2.2, h1.2, readStep_fireLog]
        | copyPush src dst keys =>
            cases keys with
            | nil => exact ⟨hns, rfl⟩
            | cons k rest =>
                simp only [runBody]
                have h1 := ih (.pushM dst (readStep src k st).2) (readStep src k st).1 r
                  (notSub_readStep r src k st hns) trivial
                have h2 := ih (.copyPush src dst rest) _ r h1.1 trivial
                refine ⟨h2.1, ?_⟩
                rw [h2.2, h1.2, readStep_fireLog]
        | pushM o v =>
            simp only [runBody]
            cases halo : alookup st.objects o with
            | none => exact ⟨hns, rfl⟩
            | some obj =>
                exact ih (.publish obj.parentReactions) _ r ⟨hns.1, hns.2⟩ trivial
        | setP o k v =>
            simp only [runBody]
            cases halo : alookup st.objects o with
            | none => exact ⟨hns, rfl⟩
            | some obj =>
                dsimp only
                by_cases hraw : rawGetF obj k = v
                · rw [if_pos hraw]
                  exact ⟨hns, rfl⟩
                · rw [if_neg hraw]
                  have hm := notSub_mintSetIfMissing r st o obj k hns
                  have h1 := ih (.observable v ((alookup (mintSetIfMissing st o obj k).objects o).bind
                      fun ob => alookup ob.propertyReactions k)) (mintSetIfMissing st o obj k) r hm trivial
                  have hsf := notSub_setField r _ o k
                    (run n (.observable v ((alookup (mintSetIfMissing st o obj k).objects o).bind
                      fun ob => alookup ob.propertyReactions k)) (mintSetIfMissing st o obj k)).2 h1.1
                  have hcount1 : (setField (run n (.observable v
                      ((alookup (mintSetIfMissing st o obj k).objects o).bind
                        fun ob => alookup ob.propertyReactions k)) (mintSetIfMissing st o obj k)).1 o k
                      (run n (.observable v ((alookup (mintSetIfMissing st o obj k).objects o).bind
                        fun ob => alookup ob.propertyReactions k)) (mintSetIfMissing st o obj k)).2).fireLog.count r
                      = st.fireLog.count r := by
                    rw [setField_fireLog, h1.2, mintSetIfMissing_fireLog]
                  set stF := setField (run n (.observable v
                      ((alookup (mintSetIfMissing st o obj k).objects o).bind
                        fun ob => alookup ob.propertyReactions k)) (mintSetIfMissing st o obj k)).1 o k
                      (run n (.observable v ((alookup (mintSetIfMissing st o obj k).objects o).bind
                        fun ob => alookup ob.propertyReactions k)) (mintSetIfMissing st o obj k)).2
                    with hGF
                  by_cases hnp : (alookup obj.fields k).isNone
                  · simp only [hnp, if_true]
                    split
                    · rename_i par hpar
                      have h2 := ih (.publish (some par)) stF r hsf trivial
                      exact ⟨h2.1, by rw [h2.2, hcount1]⟩
                    · exact ⟨hsf, hcount1⟩
                  · simp only [hnp, Bool.false_eq_true, if_false]
                    have h2 := ih (.publish ((alookup stF.objects o).bind
                        fun ob => alookup ob.propertyReactions k)) stF r hsf trivial
                    exact ⟨h2.1, by rw [h2.2, hcount1]⟩
        | publish s =>
            simp only [runBody]
            cases hbs : st.currentActionReactionSets with
            | some batch => exact ⟨⟨hns.1, hns.2⟩, rfl⟩
            | none =>
                cases s with
                | none => exact ⟨hns, rfl⟩
                | some sid =>
                    exact ih (.fire (membersOf st sid)) st r hns (hns.1 sid)
        | publishAll ss =>
            simp only [runBody]
            cases hbs : st.currentActionReactionSets with
            | some batch => exact ⟨⟨hns.1, hns.2⟩, rfl⟩
            | none =>
                cases hco : collectAll st.setsHeap ss [] with
                | none => exact ⟨hns, rfl⟩
                | some out =>
                    exact ih (.fire out) st r hns
                      (collectAll_not_mem ss st.setsHeap [] out r (by simp)
                        (fun sid => hns.1 sid) hco)
        | fire rs =>
            cases rs with
            | nil => exact ⟨hns, rfl⟩
            | cons r1 rest =>
                simp only [runBody]
                have hr1 : r1 ≠ r := by
                  intro hc
                  exact hfs (by rw [hc]; exact List.mem_cons_self r rest)
                have hrest : r ∉ rest := fun hc => hfs (List.mem_cons_of_mem r1 hc)
                have h1 := ih (.runR r1) st r hns hr1
                have h2 := ih (.fire rest) _ r h1.1 hrest
                exact ⟨h2.1, by rw [h2.2, h1.2]⟩
        | runR r1 =>
            have hr1 : r1 ≠ r := hfs
            simp only [runBody]
            have hns0 : NotSub r { st with fireLog := st.fireLog ++ [r1] } := ⟨hns.1, hns.2⟩
            have hcount0 : ({ st with fireLog := st.fireLog ++ [r1] } : JsState).fireLog.count r
                = st.fireLog.count r := by
              simp [List.count_append, List.count_singleton, hr1]
            cases hbody : alookup st.bodies r1 with
            | none => exact ⟨hns0, hcount0⟩
            | some body =>
                have hbt := notSub_beginTracking r r1 _ hr1 hns0
                have hdr := notSub_doReads r body.reads _ hbt
                have hct := notSub_completeTracking r _ hdr
                have hcount1 : (completeTracking (doReads body.reads
                    (beginTracking r1 { st with fireLog := st.fireLog ++ [r1] })).1).fireLog.count r
                    = st.fireLog.count r := by
                  rw [completeTracking_fireLog, doReads_fireLog, beginTracking_fireLog]
                  exact hcount0
                cases heff : body.effect with
                | logEffect =>
                    simp only [heff]
                    exact ⟨⟨hct.1, hct.2⟩, hcount1⟩
                | writeCache co ck =>
                    simp only [heff]
                    have h2 := ih (.setP co ck (body.compute (doReads body.reads
                      (beginTracking r1 { st with fireLog := st.fireLog ++ [r1] })).2)) _ r hct trivial
                    exact ⟨h2.1, by rw [h2.2, hcount1]⟩
        | cmds cs =>
            cases cs with
            | nil => exact ⟨hns, rfl⟩
            | cons c rest =>
                simp only [runBody]
                cases c with
                | setProp o k v =>
                    have h1 := ih (.setP o k v) st r hns trivial
                    have h2 := ih (.cmds rest) _ r h1.1 trivial
                    exact ⟨h2.1, by rw [h2.2, h1.2]⟩
                | throwJs m =>
                    have h1 : NotSub r ({ st with err := some m } : JsState) := ⟨hns.1, hns.2⟩
                    have h2 := ih (.cmds rest) _ r h1 trivial
                    exact ⟨h2.1, h2.2⟩
        | completeA =>
            simp only [runBody]
            cases hbs : st.currentActionReactionSets with
            | none => exact ⟨⟨hns.1, hns.2⟩, rfl⟩
            | some ss =>
                exact ih (.publishAll ss) _ r ⟨hns.1, hns.2⟩ trivial
        | actionA cs =>
            simp only [runBody]
            have hba : NotSub r (beginAction st) := by
              unfold beginAction
              split
              · exact hns
              · exact ⟨hns.1, hns.2⟩
            have h1 := ih (.cmds cs) (beginAction st) r hba trivial
            have h2 := ih .completeA _ r h1.1 trivial
            have hbf : (beginAction st).fireLog = st.fireLog := by
              unfold beginAction
              split <;> rfl
            exact ⟨h2.1, by rw [h2.2, h1.2, hbf]⟩

theorem dispose_shape (r : Nat) (st : JsState) :
    ∃ sh rc, dispose r st
      = { st with setsHeap := sh, reactionSubscriptionSets := rc } := by
  unfold dispose
  split
  · exact ⟨_, _, rfl⟩
  · split
    · exact ⟨_, _, rfl⟩
    · exact ⟨_, _, rfl⟩

/-- C8: disposing a reaction removes it from every reaction-set it
belonged to (under the store's subscription-record soundness invariant),
and afterwards no mutation of any field — via the proxy `set` trap, with
all its cascading publishes and re-runs — ever invokes the reaction
again (its invocation count in the fire log never changes). -/
theorem c8_dispose_silences (st : JsState) (r : Nat)
    (hInv : StoreInv st) (herr : st.err = none)
    (hframe : st.currentlyTracking = none) :
    (∀ sid, r ∉ membersOf (dispose r st) sid)
    ∧ ∀ fuel o k v,
        ((run fuel (.setP o k v) (dispose r st)).1).fireLog.count r
          = (dispose r st).fireLog.count r := by
  have hext : ∀ sid, r ∈ membersOf st sid →
      ∃ l, alookup st.setsHeap sid = some l ∧ r ∈ l := by
    intro sid hmem'
    unfold membersOf at hmem'
    cases hl : alookup st.setsHeap sid with
    | none => rw [hl] at hmem'; simp at hmem'
    | some l => exact ⟨l, rfl, by rw [hl] at hmem'; simpa using hmem'⟩
  have hmem : ∀ sid, r ∉ membersOf (dispose r st) sid := by
    intro sid
    unfold dispose
    rw [herr]
    simp only [Option.isSome_none, Bool.false_eq_true, if_false]
    cases hrec : alookup st.reactionSubscriptionSets r with
    | none =>
        intro hmem'
        obtain ⟨l, hl, hrl⟩ := hext sid hmem'
        have hs := hInv (sid, l) (mem_of_alookup_eq_some _ _ _ hl) r hrl
        unfold recordOf at hs
        rw [hrec] at hs
        simp at hs
    | some sids =>
        show r ∉ (alookup (removeFromSets sids r st.setsHeap) sid).getD []
        apply removeFromSets_not_mem
        by_cases hin : r ∈ (alookup st.setsHeap sid).getD []
        · left
          obtain ⟨l, hl, hrl⟩ := hext sid (by unfold membersOf; exact hin)
          have hs := hInv (sid, l) (mem_of_alookup_eq_some _ _ _ hl) r hrl
          unfold recordOf at hs
          rw [hrec] at hs
          simpa using hs
        · right
          exact hin
  have hnsub : NotSub r (dispose r st) := by
    refine ⟨hmem, ?_⟩
    obtain ⟨sh, rc, h⟩ := dispose_shape r st
    rw [h]
    show Option.map Prod.fst st.currentlyTracking ≠ some r
    rw [hframe]
    simp
  exact ⟨hmem, fun fuel o k v =>
    (run_notSub fuel (.setP o k v) (dispose r st) r hnsub trivial).2⟩

/-- C8 (witness): reaction 5 is subscribed to set 0 (with a sound
record); after `dispose`, it is out of set 0 and a later mutation fires
it zero further times. -/
theorem c8_dispose_silences_witness :
    (5 : Nat) ∉ membersOf (dispose 5 c8WSt) 0 ∧
    ((run 3 (.setP 9 "x" (.vNum 1)) (dispose 5 c8WSt)).1).fireLog.count 5
      = (dispose 5 c8WSt).fireLog.count 5 := by
  have h := c8_dispose_silences c8WSt 5 (by unfold StoreInv; decide) rfl rfl
  exact ⟨h.1 0, h.2 3 9 "x" (.vNum 1)⟩
